import Mathlib

/-!
# node_wasm_streaming.cc: the WebAssembly streaming bridge

A shallow embedding of `src/node_wasm_streaming.cc`.

* JavaScript values are the inductive `Value`; a `Local<T>` handle is an
  `Option Value`, the empty handle being `none`.
* The process state is a `World`: the `Environment` fields this file reads and
  writes, and the trace of the calls made on the engine and on the embedder,
  oldest first.
* A C++ function is a function `World → Result α`; a failed `CHECK`, a failed
  `ToLocalChecked` and a call through an empty handle end the run with
  `Result.fatal`, which keeps the world at that moment.
* The engine and the embedder are not part of the file. What the engine answers
  (`accepts`), what the provider does when called (`Script`), what the
  cache-store hook returns (`hookResult`) are parameters of the functions.
-/

namespace node.wasm_streaming

/-! ## Values -/

/-- A `v8::BackingStore`: the bytes of one allocation (each byte a number below 256). -/
structure BackingStore where
  Data : List Nat
deriving DecidableEq, Repr

/-- A `v8::ArrayBufferView`: `Buffer()->GetBackingStore()`, `ByteOffset()`, `ByteLength()`. -/
structure ArrayBufferView where
  Buffer : BackingStore
  ByteOffset : Nat
  ByteLength : Nat
deriving DecidableEq, Repr

/-- A `v8::Value`, as far as this file tells values apart. `managed` is the request
data the engine hands to `WasmStreamingCallback` (`args.Data()`); `wrap data` is the
script-visible object of the `WasmStreamingWrap` created for the request data `data`. -/
inductive Value where
  | undefined
  | null
  | boolean (b : Bool)
  | string (s : String)
  | function (id : Nat)
  | object (id : Nat)
  | arrayBufferView (ui : ArrayBufferView)
  | arrayBuffer (store : BackingStore)
  | managed (id : Nat)
  | wrap (data : Value)
deriving DecidableEq, Repr

/-- The test `Value::IsString`. -/
def Value.IsString : Value → Bool
  | .string _ => true
  | _ => false

/-- The test `Value::IsArrayBufferView`. -/
def Value.IsArrayBufferView : Value → Bool
  | .arrayBufferView _ => true
  | _ => false

/-- The test `Value::IsFunction`. -/
def Value.IsFunction : Value → Bool
  | .function _ => true
  | _ => false

/-- The test `Value::IsNull`. -/
def Value.IsNull : Value → Bool
  | .null => true
  | _ => false

/-- The argument `args[i]` of a `FunctionCallbackInfo`: `undefined` past the end. -/
def arg (args : List Value) (i : Nat) : Value :=
  args.getD i Value.undefined

/-! ## The engine's streaming handle -/

/-- Modelled from the spec: the engine's `v8::WasmStreaming` handle (v8.h is absent).
The handle is known by the request data it is resolved from. -/
structure WasmStreaming where
  data : Value
deriving DecidableEq, Repr

/-- Modelled from the spec: `WasmStreaming::Unpack(isolate, value)`, the collaborator
contract `Unpack(requestHandle) -> streamingHandle`. -/
def WasmStreaming.Unpack (value : Value) : WasmStreaming :=
  ⟨value⟩

/-- Modelled from the spec: the primitives of the streaming handle (`SetUrl`,
`SetClient`, `SetCompiledModuleBytes`, `OnBytesReceived`, `Abort`, `Finish`), each
with the data it is called with. A pointer and length pair is recorded as the bytes
it designates. -/
inductive StreamingCall where
  | SetUrl (url : String)
  | SetClient
  | SetCompiledModuleBytes (bytes : List Nat)
  | OnBytesReceived (bytes : List Nat)
  | Abort (exception : Value)
  | Finish
deriving DecidableEq, Repr

/-- What the process does that the engine or the embedder can observe. -/
inductive Event where
  /-- a call of `WasmStreaming::Unpack` on the request data -/
  | Unpack (data : Value)
  /-- a primitive called on a streaming handle -/
  | streaming (handle : WasmStreaming) (call : StreamingCall)
  /-- the provider hook `fn` called with `argv` -/
  | providerCall (fn : Value) (argv : List Value)
  /-- the cache-store hook `fn` called with `argv` -/
  | cacheStoreCall (fn : Value) (argv : List Value)
deriving DecidableEq, Repr

/-! ## Serialized modules and memory -/

/-- Modelled from the spec: `v8::OwnedBuffer` (v8.h is absent), the ArtifactBuffer
"{data: byte sequence, length}" that `Serialize()` returns: the member `buffer`, a
`std::unique_ptr<const uint8_t[]>`, holds the address of the bytes, and `size` is
their number. -/
structure OwnedBuffer where
  buffer : Nat
  size : Nat
deriving DecidableEq, Repr

/-- The machine state right after `OwnedBuffer owned = compiled_module.Serialize();`:
the byte-addressed `memory`, the value of the local `owned`, and the address
`ownedAddr` at which `owned` lives. `buffer` is the first member of `OwnedBuffer`, so
`&owned.buffer` is `ownedAddr`. -/
structure Serialized where
  memory : Nat → Nat
  owned : OwnedBuffer
  ownedAddr : Nat

/-- The `n` bytes of `memory` from address `src` on: what `memcpy(dest, src, n)` writes
to `dest`. -/
def memcpy (memory : Nat → Nat) (src : Nat) : Nat → List Nat
  | 0 => []
  | n + 1 => memory src :: memcpy memory (src + 1) n

/-- The serialized module itself: the `owned.size` bytes at the address `owned.buffer`. -/
def Serialized.bytes (s : Serialized) : List Nat :=
  memcpy s.memory s.owned.buffer s.owned.size

/-- The eight bytes of a 64-bit little-endian word. -/
def le64 (x : Nat) : List Nat :=
  (List.range 8).map (fun i => x / 256 ^ i % 256)

/-- The object `owned` is laid out in memory as on a 64-bit little-endian machine: the
pointer `buffer` at offset 0, `size` at offset 8. -/
def Serialized.layout (s : Serialized) : Prop :=
  memcpy s.memory s.ownedAddr 8 = le64 s.owned.buffer ∧
    memcpy s.memory (s.ownedAddr + 8) 8 = le64 s.owned.size

instance (s : Serialized) : Decidable s.layout := by
  unfold Serialized.layout; infer_instance

/-- A `v8::CompiledWasmModule`: its `source_url()` and what `Serialize()` produces. -/
structure CompiledWasmModule where
  source_url : String
  Serialize : Serialized

/-! ## The environment -/

/-- The fields of `node::Environment` used by the file. The three persistent handles
are empty (`none`) or hold a value. `threadsafe_immediates` is the queue of
`SetImmediateThreadsafe`; the only closure this file enqueues is the one of
`OnModuleCompiled`, recorded as the `compiled_module` it captures. -/
structure Environment where
  wasm_streaming_callback : Option Value
  wasm_streaming_cache_handler : Option Value
  wasm_streaming_cache_callback : Option Value
  threadsafe_immediates : List CompiledWasmModule

/-- The process state. -/
structure World where
  env : Environment
  trace : List Event

/-- Appends an event to the trace. -/
def World.log (w : World) (e : Event) : World :=
  { w with trace := w.trace ++ [e] }

/-- Why the process aborted. -/
inductive Fatal where
  /-- a `CHECK(...)` failed -/
  | check (what : String)
  /-- a member was called through an empty `Local` handle -/
  | emptyHandle (what : String)
  /-- the method `ToLocalChecked` was called on an empty `MaybeLocal` -/
  | toLocalChecked (what : String)
deriving DecidableEq, Repr

/-- The outcome of running a C++ function: it returns `a` in world `w`, or the process
aborts in world `w`. -/
inductive Result (α : Type) where
  | ok (a : α) (w : World)
  | fatal (f : Fatal) (w : World)

/-- The world an outcome ends in. -/
def Result.world {α : Type} : Result α → World
  | .ok _ w => w
  | .fatal _ w => w

/-- The outcome is a return. -/
def Result.isOk {α : Type} : Result α → Bool
  | .ok _ _ => true
  | .fatal _ _ => false

/-! ## WasmStreamingClient -/

/-- The closure that `OnModuleCompiled` hands to `SetImmediateThreadsafe`, run on the
control thread with the captured `compiled_module`. `hookResult` is what the call of
the cache-store hook returns: `none` when the hook throws. The URL string is taken to
be created (`NewFromUtf8(...).ToLocalChecked()` does not fail). -/
def WasmStreamingClient.immediate (hookResult : Option Value) (compiled_module : CompiledWasmModule)
    (w : World) : Result Unit :=
  -- OwnedBuffer owned = compiled_module.Serialize();
  let owned := compiled_module.Serialize.owned
  if owned.size = 0 then
    Result.ok () w
  else
    -- store = ArrayBuffer::NewBackingStore(isolate, owned.size); dest = store->Data();
    -- memcpy(dest, &owned.buffer, owned.size);
    let store : BackingStore :=
      ⟨memcpy compiled_module.Serialize.memory compiled_module.Serialize.ownedAddr owned.size⟩
    let ab := Value.arrayBuffer store
    let url := Value.string compiled_module.source_url
    let args := [url, ab]
    match w.env.wasm_streaming_cache_callback with
    | none => Result.fatal (Fatal.emptyHandle "wasm_streaming_cache_callback") w
    | some fn =>
      let w1 := w.log (Event.cacheStoreCall fn args)
      match hookResult with
      | none => Result.fatal (Fatal.toLocalChecked "wasm_streaming_cache_callback") w1
      | some _ => Result.ok () w1

/-- The method `WasmStreamingClient::OnModuleCompiled`: the whole body is one call of
`env_->SetImmediateThreadsafe` with a closure that captures `compiled_module`. -/
def WasmStreamingClient.OnModuleCompiled (compiled_module : CompiledWasmModule) (w : World) :
    World :=
  { w with env := { w.env with
      threadsafe_immediates := w.env.threadsafe_immediates ++ [compiled_module] } }

/-- Runs queued closures in order, stopping at the first one that aborts the process. -/
def runImmediates (hookResult : Option Value) : List CompiledWasmModule → World → Result Unit
  | [], w => Result.ok () w
  | m :: ms, w =>
    match WasmStreamingClient.immediate hookResult m w with
    | Result.ok _ w1 => runImmediates hookResult ms w1
    | Result.fatal f w1 => Result.fatal f w1

/-- Modelled from the spec: the control thread's task queue (env.cc is absent). The
control thread takes the queued closures off the queue and runs them in order. -/
def drainImmediates (hookResult : Option Value) (w : World) : Result Unit :=
  runImmediates hookResult w.env.threadsafe_immediates
    { w with env := { w.env with threadsafe_immediates := [] } }

/-! ## WasmStreamingWrap -/

/-- The members of `WasmStreamingWrap`. -/
structure WasmStreamingWrap where
  streaming_ : WasmStreaming
  cached_backing_store_ : Option BackingStore
deriving DecidableEq, Repr

/-- The bytes a view designates: `ByteLength()` bytes from `store->Data() + ByteOffset()`. -/
def ArrayBufferView.bytes (ui : ArrayBufferView) : List Nat :=
  (ui.Buffer.Data.drop ui.ByteOffset).take ui.ByteLength

/-- The view lies inside its backing store. -/
def ArrayBufferView.inBounds (ui : ArrayBufferView) : Prop :=
  ui.ByteOffset + ui.ByteLength ≤ ui.Buffer.Data.length

instance (ui : ArrayBufferView) : Decidable ui.inBounds := by
  unfold ArrayBufferView.inBounds; infer_instance

/-- The function `WasmStreamingWrap::New`: unpacks the handle from `args[0]` and
builds the wrap. -/
def WasmStreamingWrap.New (args : List Value) (w : World) : WasmStreamingWrap × World :=
  let w1 := w.log (Event.Unpack (arg args 0))
  (⟨WasmStreaming.Unpack (arg args 0), none⟩, w1)

/-- The function `WasmStreamingWrap::Create`: a new instance of the constructor, with
the one argument `arg`; returns the native wrap and its script-visible object. The
instance is taken to be created (the `ToLocalChecked()` of the caller does not fail). -/
def WasmStreamingWrap.Create (a : Value) (w : World) : (WasmStreamingWrap × Value) × World :=
  let r := WasmStreamingWrap.New [a] w
  ((r.1, Value.wrap a), r.2)

/-- The method `setURL`. `this` is the native wrap behind `args.This()`, `none` when
there is none (`ASSIGN_OR_RETURN_UNWRAP` then returns). Each method returns the wrap
after the call and the value set with `args.GetReturnValue()`. -/
def WasmStreamingWrap.SetURL (this : Option WasmStreamingWrap) (args : List Value) (w : World) :
    Result (Option WasmStreamingWrap × Value) :=
  match this with
  | none => Result.ok (none, Value.undefined) w
  | some wrap =>
    match arg args 0 with
    | Value.string utf8 =>
      let w1 := w.log (Event.streaming wrap.streaming_ (StreamingCall.SetUrl utf8))
      if w1.env.wasm_streaming_cache_callback.isSome then
        Result.ok (some wrap, Value.undefined)
          (w1.log (Event.streaming wrap.streaming_ StreamingCall.SetClient))
      else
        Result.ok (some wrap, Value.undefined) w1
    | _ => Result.fatal (Fatal.check "args[0]->IsString()") w

/-- The method `setCompiledModuleBytes`. `accepts` is the answer of the engine to
`streaming_->SetCompiledModuleBytes(data, length)` for the bytes it is given. -/
def WasmStreamingWrap.SetCompiledModuleBytes (accepts : List Nat → Bool)
    (this : Option WasmStreamingWrap) (args : List Value) (w : World) :
    Result (Option WasmStreamingWrap × Value) :=
  match this with
  | none => Result.ok (none, Value.undefined) w
  | some wrap =>
    match arg args 0 with
    | Value.arrayBufferView ui =>
      let store := ui.Buffer
      let w1 := w.log (Event.streaming wrap.streaming_ (StreamingCall.SetCompiledModuleBytes ui.bytes))
      let result := accepts ui.bytes
      if result then
        -- hold buffer long enough for v8 to use it
        Result.ok (some { wrap with cached_backing_store_ := some store }, Value.boolean result) w1
      else
        Result.ok (some wrap, Value.boolean result) w1
    | _ => Result.fatal (Fatal.check "args[0]->IsArrayBufferView()") w

/-- The method `onBytesReceived`. -/
def WasmStreamingWrap.OnBytesReceived (this : Option WasmStreamingWrap) (args : List Value)
    (w : World) : Result (Option WasmStreamingWrap × Value) :=
  match this with
  | none => Result.ok (none, Value.undefined) w
  | some wrap =>
    match arg args 0 with
    | Value.arrayBufferView ui =>
      Result.ok (some wrap, Value.undefined)
        (w.log (Event.streaming wrap.streaming_ (StreamingCall.OnBytesReceived ui.bytes)))
    | _ => Result.fatal (Fatal.check "args[0]->IsArrayBufferView()") w

/-- The method `abort`. -/
def WasmStreamingWrap.Abort (this : Option WasmStreamingWrap) (args : List Value) (w : World) :
    Result (Option WasmStreamingWrap × Value) :=
  match this with
  | none => Result.ok (none, Value.undefined) w
  | some wrap =>
    Result.ok (some wrap, Value.undefined)
      (w.log (Event.streaming wrap.streaming_ (StreamingCall.Abort (arg args 0))))

/-- The method `finish`. -/
def WasmStreamingWrap.Finish (this : Option WasmStreamingWrap) (_args : List Value) (w : World) :
    Result (Option WasmStreamingWrap × Value) :=
  match this with
  | none => Result.ok (none, Value.undefined) w
  | some wrap =>
    Result.ok (some wrap, Value.undefined)
      (w.log (Event.streaming wrap.streaming_ StreamingCall.Finish))

/-- A call of a method of the session object from script, with its arguments: the
prototype methods installed by `GetConstructorTemplate`. -/
inductive SessionCall where
  | setURL (args : List Value)
  | setCompiledModuleBytes (args : List Value)
  | onBytesReceived (args : List Value)
  | abort (args : List Value)
  | finish (args : List Value)
deriving DecidableEq, Repr

/-- The table of `GetConstructorTemplate`: which function each method name runs. -/
def SessionCall.run (accepts : List Nat → Bool) (c : SessionCall) (this : Option WasmStreamingWrap)
    (w : World) : Result (Option WasmStreamingWrap × Value) :=
  match c with
  | .setURL args => WasmStreamingWrap.SetURL this args w
  | .setCompiledModuleBytes args => WasmStreamingWrap.SetCompiledModuleBytes accepts this args w
  | .onBytesReceived args => WasmStreamingWrap.OnBytesReceived this args w
  | .abort args => WasmStreamingWrap.Abort this args w
  | .finish args => WasmStreamingWrap.Finish this args w

/-- Script calls the methods `calls` on a session object one after the other; a failed
`CHECK` ends the run. -/
def runCalls (accepts : List Nat → Bool) :
    List SessionCall → Option WasmStreamingWrap → World → Result (Option WasmStreamingWrap)
  | [], this, w => Result.ok this w
  | c :: cs, this, w =>
    match c.run accepts this w with
    | Result.ok r w1 => runCalls accepts cs r.1 w1
    | Result.fatal f w1 => Result.fatal f w1

/-! ## The dispatcher and the registration functions -/

/-- What the embedder's provider hook does when it is called: the session methods it
calls, in order, and then whether it returns (`throws = none`) or throws a value. -/
structure Script where
  calls : List SessionCall
  throws : Option Value

/-- The function `WasmStreamingCallback`, called by the engine with `args` and the
request data `args.Data()`. The value returned is the exception left pending for the
caller when the function returns: the `TryCatchScope` holds what the provider threw and
nothing rethrows it, so there is none. -/
def WasmStreamingCallback (accepts : List Nat → Bool) (script : Script) (args : List Value)
    (Data : Value) (w : World) : Result (Option Value) :=
  let fn := w.env.wasm_streaming_callback
  let created := WasmStreamingWrap.Create Data w
  let wrap := created.1.2
  let w1 := created.2
  let handler := match w1.env.wasm_streaming_cache_handler with
    | none => Value.undefined
    | some h => h
  let argv := [arg args 0, wrap, handler]
  match fn with
  | none => Result.fatal (Fatal.emptyHandle "wasm_streaming_callback") w1
  | some f =>
    let w2 := w1.log (Event.providerCall f argv)
    match runCalls accepts script.calls (some created.1.1) w2 with
    | Result.fatal x w3 => Result.fatal x w3
    | Result.ok _ w3 =>
      match script.throws with
      | none => Result.ok none w3
      | some exception =>
        let w4 := w3.log (Event.Unpack Data)
        let streaming := WasmStreaming.Unpack Data
        Result.ok none (w4.log (Event.streaming streaming (StreamingCall.Abort exception)))

/-- The function `SetWasmStreamingCallback`. -/
def SetWasmStreamingCallback (args : List Value) (w : World) : Result Unit :=
  if (arg args 0).IsFunction then
    Result.ok () { w with env := { w.env with wasm_streaming_callback := some (arg args 0) } }
  else
    Result.fatal (Fatal.check "args[0]->IsFunction()") w

/-- The function `SetWasmStreamingCacheHandler`. -/
def SetWasmStreamingCacheHandler (args : List Value) (w : World) : Result Unit :=
  if (arg args 0).IsNull then
    Result.ok () { w with env := { w.env with
      wasm_streaming_cache_handler := none
      wasm_streaming_cache_callback := none } }
  else
    Result.ok () { w with env := { w.env with
      wasm_streaming_cache_handler := some (arg args 0)
      wasm_streaming_cache_callback := some (arg args 1) } }

/-- The entry points that `Initialize` installs on the binding object, with their
arguments. -/
inductive RegistryCall where
  | setWasmStreamingCallback (args : List Value)
  | setWasmStreamingCacheHandler (args : List Value)
deriving DecidableEq, Repr

/-- The table of `Initialize`: which function each entry point runs. -/
def RegistryCall.run (c : RegistryCall) (w : World) : Result Unit :=
  match c with
  | .setWasmStreamingCallback args => SetWasmStreamingCallback args w
  | .setWasmStreamingCacheHandler args => SetWasmStreamingCacheHandler args w

/-- Script calls the registration entry points one after the other; a failed `CHECK`
ends the run. -/
def runRegistry : List RegistryCall → World → Result Unit
  | [], w => Result.ok () w
  | c :: cs, w =>
    match c.run w with
    | Result.ok _ w1 => runRegistry cs w1
    | Result.fatal f w1 => Result.fatal f w1

/-- Modelled from the spec: the environment before any registration (env.h is absent).
The registry is "explicit, not implicitly initialized": the three handles are empty,
nothing is queued and nothing has happened. -/
def World.initial : World :=
  ⟨⟨none, none, none, []⟩, []⟩

/-! ## Reading a trace -/

/-- The calls of the cache-store hook in a trace: the function called and its arguments. -/
def cacheStoreCalls : List Event → List (Value × List Value)
  | [] => []
  | Event.cacheStoreCall fn argv :: t => (fn, argv) :: cacheStoreCalls t
  | Event.Unpack _ :: t => cacheStoreCalls t
  | Event.streaming _ _ :: t => cacheStoreCalls t
  | Event.providerCall _ _ :: t => cacheStoreCalls t

/-- The calls of the provider hook in a trace: the function called and its arguments. -/
def providerCalls : List Event → List (Value × List Value)
  | [] => []
  | Event.providerCall fn argv :: t => (fn, argv) :: providerCalls t
  | Event.Unpack _ :: t => providerCalls t
  | Event.streaming _ _ :: t => providerCalls t
  | Event.cacheStoreCall _ _ :: t => providerCalls t

/-- The primitives that the handle `h` received, in order. -/
def handleCalls (h : WasmStreaming) : List Event → List StreamingCall
  | [] => []
  | Event.streaming h1 c :: t => if h1 = h then c :: handleCalls h t else handleCalls h t
  | Event.Unpack _ :: t => handleCalls h t
  | Event.providerCall _ _ :: t => handleCalls h t
  | Event.cacheStoreCall _ _ :: t => handleCalls h t

/-- The bytes that a handle was given through `OnBytesReceived`, in the order received. -/
def receivedBytes : List StreamingCall → List Nat
  | [] => []
  | StreamingCall.OnBytesReceived bytes :: t => bytes ++ receivedBytes t
  | StreamingCall.SetUrl _ :: t => receivedBytes t
  | StreamingCall.SetClient :: t => receivedBytes t
  | StreamingCall.SetCompiledModuleBytes _ :: t => receivedBytes t
  | StreamingCall.Abort _ :: t => receivedBytes t
  | StreamingCall.Finish :: t => receivedBytes t

/-- A client was attached to the handle: it received `SetClient`. -/
def hasClient (cs : List StreamingCall) : Bool :=
  cs.any (fun c => decide (c = StreamingCall.SetClient))

/-- The URL that the handle was given last through `SetUrl`. -/
def lastUrl : List StreamingCall → Option String
  | [] => none
  | c :: cs =>
    match lastUrl cs with
    | some u => some u
    | none =>
      match c with
      | StreamingCall.SetUrl u => some u
      | _ => none

/-- Modelled from the spec: the engine completes the compile of the handle `h` (the
engine is absent). "On a completed compile" the engine "calls back into
CompletionClient's `OnModuleCompiled(compiledHandle)` exactly once", and only a handle
that was given a client with `SetClient` has one to call; the compiled module carries
"the module's recorded source URL", the one given last with `SetUrl`. `ser` is what
serializing the compiled module produces. -/
def compileSucceeded (h : WasmStreaming) (ser : Serialized) (w : World) : World :=
  if hasClient (handleCalls h w.trace) then
    WasmStreamingClient.OnModuleCompiled ⟨(lastUrl (handleCalls h w.trace)).getD "", ser⟩ w
  else
    w

/-! ## Well-typed session calls and what they forward -/

/-- The argument of the call passes the `CHECK` of the method. -/
def SessionCall.wellTyped : SessionCall → Bool
  | .setURL args => (arg args 0).IsString
  | .setCompiledModuleBytes args => (arg args 0).IsArrayBufferView
  | .onBytesReceived args => (arg args 0).IsArrayBufferView
  | .abort _ => true
  | .finish _ => true

/-- The primitive of the streaming handle that carries a session method call over: the
one of the same name, with the string, the bytes or the value of the first argument. -/
def SessionCall.primitive : SessionCall → Option StreamingCall
  | .setURL args =>
    match arg args 0 with
    | Value.string u => some (StreamingCall.SetUrl u)
    | _ => none
  | .setCompiledModuleBytes args =>
    match arg args 0 with
    | Value.arrayBufferView ui => some (StreamingCall.SetCompiledModuleBytes ui.bytes)
    | _ => none
  | .onBytesReceived args =>
    match arg args 0 with
    | Value.arrayBufferView ui => some (StreamingCall.OnBytesReceived ui.bytes)
    | _ => none
  | .abort args => some (StreamingCall.Abort (arg args 0))
  | .finish _ => some StreamingCall.Finish

/-- The URL that a call of `setURL` with a string argument sets. -/
def SessionCall.url : SessionCall → Option String
  | .setURL args =>
    match arg args 0 with
    | Value.string u => some u
    | _ => none
  | _ => none

/-- The URL that script set last through `setURL`. -/
def lastSetURL : List SessionCall → Option String
  | [] => none
  | c :: cs =>
    match lastSetURL cs with
    | some u => some u
    | none => c.url

/-- The events a well-typed session method call adds to the trace: its primitive on the
handle `h`, and for `setURL` the `SetClient` that follows when a cache-store hook is
registered (`hook`). -/
def SessionCall.events (hook : Bool) (h : WasmStreaming) (c : SessionCall) : List Event :=
  match c, c.primitive with
  | _, none => []
  | .setURL _, some p =>
    Event.streaming h p :: (if hook then [Event.streaming h StreamingCall.SetClient] else [])
  | _, some p => [Event.streaming h p]

/-- The events of a sequence of session method calls. -/
def sessionEvents (hook : Bool) (h : WasmStreaming) : List SessionCall → List Event
  | [] => []
  | c :: cs => c.events hook h ++ sessionEvents hook h cs

/-! ## Concrete inputs -/

/-- A memory with the three bytes 1, 2, 3 at address 0x1000 and, at address 0x7ff0, an
`OwnedBuffer` whose `buffer` is 0x1000 (bytes 00 10 00 00 00 00 00 00) and whose
`size` is 3 (bytes 03 00 00 00 00 00 00 00); every other byte is 0. -/
def exampleMemory : Nat → Nat := fun a =>
  if a = 0x1000 then 1
  else if a = 0x1001 then 2
  else if a = 0x1002 then 3
  else if a = 0x7ff1 then 0x10
  else if a = 0x7ff8 then 3
  else 0

/-- A compiled module with source URL `a.wasm` whose serialization is the bytes 1, 2, 3. -/
def exampleModule : CompiledWasmModule :=
  ⟨"a.wasm", ⟨exampleMemory, ⟨0x1000, 3⟩, 0x7ff0⟩⟩

/-- A compiled module whose serialization has zero length. -/
def emptyModule : CompiledWasmModule :=
  ⟨"a.wasm", ⟨fun _ => 0, ⟨0, 0⟩, 0x7ff0⟩⟩

/-- A world in which a provider (function 1), a cache handler (object 1) and a
cache-store hook (function 2) are registered, and nothing has happened yet. -/
def exampleWorld : World :=
  ⟨⟨some (Value.function 1), some (Value.object 1), some (Value.function 2), []⟩, []⟩

/-- The session wrap of the request with data `managed 7`, just created. -/
def exampleWrap : WasmStreamingWrap :=
  ⟨WasmStreaming.Unpack (Value.managed 7), none⟩

/-- A view of the two bytes 20, 30 inside a store of four bytes. -/
def exampleView : ArrayBufferView :=
  ⟨⟨[10, 20, 30, 40]⟩, 1, 2⟩

/-- A view of the whole of a one-byte store. -/
def otherView : ArrayBufferView :=
  ⟨⟨[99]⟩, 0, 1⟩

/-- An engine that accepts the bytes 20, 30 as a compiled module and nothing else. -/
def exampleAccepts : List Nat → Bool := fun bytes =>
  decide (bytes = [20, 30])

/-- A provider that returns at once. -/
def idleScript : Script :=
  ⟨[], none⟩

/-- A provider that sets a URL, delivers one chunk and then throws the string `boom`. -/
def throwingScript : Script :=
  ⟨[SessionCall.setURL [Value.string "a.wasm"],
    SessionCall.onBytesReceived [Value.arrayBufferView exampleView]],
   some (Value.string "boom")⟩

/-- The call of `onBytesReceived` with one buffer view as its argument. -/
def onBytesReceivedCall (ui : ArrayBufferView) : SessionCall :=
  SessionCall.onBytesReceived [Value.arrayBufferView ui]

/-- The registration call is one of `setWasmStreamingCallback`. -/
def RegistryCall.isCallback : RegistryCall → Bool
  | .setWasmStreamingCallback _ => true
  | .setWasmStreamingCacheHandler _ => false

/-- The cache handler and the cache-store hook are both set or both cleared. -/
def Environment.paired (e : Environment) : Prop :=
  e.wasm_streaming_cache_handler.isSome = e.wasm_streaming_cache_callback.isSome

/-- A registration of a provider and of a cache handler, then the clearing of the
cache handler, then a new provider. -/
def exampleRegistration : List RegistryCall :=
  [RegistryCall.setWasmStreamingCallback [Value.function 1],
   RegistryCall.setWasmStreamingCacheHandler [Value.object 1, Value.function 2],
   RegistryCall.setWasmStreamingCacheHandler [Value.null, Value.function 2],
   RegistryCall.setWasmStreamingCallback [Value.function 3]]

/-- The world after `exampleRegistration`: provider function 3, no cache handler and no
cache-store hook. -/
def clearedWorld : World :=
  ⟨⟨some (Value.function 3), none, none, []⟩, []⟩

/-- A clearing of the cache handler, then the registration of a provider (function 3) and
of a cache handler (object 1) with its cache-store hook (function 2), then a new provider
(function 4). -/
def handlerRegistration : List RegistryCall :=
  [RegistryCall.setWasmStreamingCacheHandler [Value.null, Value.function 5],
   RegistryCall.setWasmStreamingCallback [Value.function 3],
   RegistryCall.setWasmStreamingCacheHandler [Value.object 1, Value.function 2],
   RegistryCall.setWasmStreamingCallback [Value.function 4]]

/-- The world after `handlerRegistration`: provider function 4, cache handler object 1,
cache-store hook function 2. -/
def handlerWorld : World :=
  ⟨⟨some (Value.function 4), some (Value.object 1), some (Value.function 2), []⟩, []⟩

/-! ## Lemmas on traces -/

theorem cacheStoreCalls_append (t1 t2 : List Event) :
    cacheStoreCalls (t1 ++ t2) = cacheStoreCalls t1 ++ cacheStoreCalls t2 := by
  induction t1 with
  | nil => rfl
  | cons e t ih => cases e <;> simp [cacheStoreCalls, ih]

theorem providerCalls_append (t1 t2 : List Event) :
    providerCalls (t1 ++ t2) = providerCalls t1 ++ providerCalls t2 := by
  induction t1 with
  | nil => rfl
  | cons e t ih => cases e <;> simp [providerCalls, ih]

theorem handleCalls_append (h : WasmStreaming) (t1 t2 : List Event) :
    handleCalls h (t1 ++ t2) = handleCalls h t1 ++ handleCalls h t2 := by
  induction t1 with
  | nil => rfl
  | cons e t ih =>
    cases e <;> simp [handleCalls, ih]
    split <;> simp

theorem receivedBytes_append (c1 c2 : List StreamingCall) :
    receivedBytes (c1 ++ c2) = receivedBytes c1 ++ receivedBytes c2 := by
  induction c1 with
  | nil => rfl
  | cons c t ih => cases c <;> simp [receivedBytes, ih]

theorem hasClient_append (c1 c2 : List StreamingCall) :
    hasClient (c1 ++ c2) = (hasClient c1 || hasClient c2) := by
  simp [hasClient]

theorem lastUrl_append (c1 c2 : List StreamingCall) :
    lastUrl (c1 ++ c2) = (match lastUrl c2 with
      | some u => some u
      | none => lastUrl c1) := by
  induction c1 with
  | nil => cases h : lastUrl c2 <;> simp [lastUrl, h]
  | cons c t ih =>
    have e : lastUrl (c :: t ++ c2) = (match lastUrl (t ++ c2) with
      | some u => some u
      | none =>
        match c with
        | StreamingCall.SetUrl u => some u
        | _ => none) := rfl
    rw [e, ih]
    cases h : lastUrl c2 <;> simp [lastUrl]

/-- A well-typed session method call returns, leaves the environment and the handle of
the wrap as they are, and adds its events to the trace. -/
theorem SessionCall.run_ok (accepts : List Nat → Bool) (c : SessionCall) (wrap : WasmStreamingWrap)
    (w : World) (hc : c.wellTyped = true) :
    ∃ wrap1 v, c.run accepts (some wrap) w = Result.ok (some wrap1, v)
        ⟨w.env, w.trace ++ c.events w.env.wasm_streaming_cache_callback.isSome wrap.streaming_⟩ ∧
      wrap1.streaming_ = wrap.streaming_ := by
  cases c with
  | setURL args =>
    simp only [SessionCall.wellTyped] at hc
    cases h : arg args 0 <;> simp [h, Value.IsString] at hc
    cases hk : w.env.wasm_streaming_cache_callback
    · exact ⟨wrap, Value.undefined,
        by simp [SessionCall.run, WasmStreamingWrap.SetURL, h, hk, World.log, SessionCall.events,
          SessionCall.primitive], rfl⟩
    · exact ⟨wrap, Value.undefined,
        by simp [SessionCall.run, WasmStreamingWrap.SetURL, h, hk, World.log, SessionCall.events,
          SessionCall.primitive], rfl⟩
  | setCompiledModuleBytes args =>
    simp only [SessionCall.wellTyped] at hc
    cases h : arg args 0 <;> simp [h, Value.IsArrayBufferView] at hc
    rename_i ui
    cases ha : accepts ui.bytes
    · exact ⟨wrap, Value.boolean false,
        by simp [SessionCall.run, WasmStreamingWrap.SetCompiledModuleBytes, h, ha, World.log,
          SessionCall.events, SessionCall.primitive], rfl⟩
    · exact ⟨{ wrap with cached_backing_store_ := some ui.Buffer }, Value.boolean true,
        by simp [SessionCall.run, WasmStreamingWrap.SetCompiledModuleBytes, h, ha, World.log,
          SessionCall.events, SessionCall.primitive], rfl⟩
  | onBytesReceived args =>
    simp only [SessionCall.wellTyped] at hc
    cases h : arg args 0 <;> simp [h, Value.IsArrayBufferView] at hc
    exact ⟨wrap, Value.undefined,
      by simp [SessionCall.run, WasmStreamingWrap.OnBytesReceived, h, World.log,
        SessionCall.events, SessionCall.primitive], rfl⟩
  | abort args =>
    exact ⟨wrap, Value.undefined,
      by simp [SessionCall.run, WasmStreamingWrap.Abort, World.log, SessionCall.events,
        SessionCall.primitive], rfl⟩
  | finish args =>
    exact ⟨wrap, Value.undefined,
      by simp [SessionCall.run, WasmStreamingWrap.Finish, World.log, SessionCall.events,
        SessionCall.primitive], rfl⟩

/-- A sequence of well-typed session method calls returns, leaves the environment and the
handle of the wrap as they are, and adds the events of the calls, in order, to the trace. -/
theorem runCalls_ok (accepts : List Nat → Bool) (cs : List SessionCall) :
    ∀ (wrap : WasmStreamingWrap) (w : World), (∀ c ∈ cs, c.wellTyped = true) →
    ∃ wrap1, runCalls accepts cs (some wrap) w = Result.ok (some wrap1)
        ⟨w.env, w.trace ++
          sessionEvents w.env.wasm_streaming_cache_callback.isSome wrap.streaming_ cs⟩ ∧
      wrap1.streaming_ = wrap.streaming_ := by
  induction cs with
  | nil => intro wrap w _; exact ⟨wrap, by simp [runCalls, sessionEvents], rfl⟩
  | cons c cs ih =>
    intro wrap w hcs
    obtain ⟨wrap1, v, hrun, hs⟩ :=
      SessionCall.run_ok accepts c wrap w (hcs c (List.mem_cons_self _ _))
    obtain ⟨wrap2, hrun2, hs2⟩ :=
      ih wrap1 ⟨w.env, w.trace ++ c.events w.env.wasm_streaming_cache_callback.isSome wrap.streaming_⟩
        (fun d hd => hcs d (List.mem_cons_of_mem _ hd))
    refine ⟨wrap2, ?_, hs2.trans hs⟩
    simp only [runCalls, hrun, hrun2, hs]
    simp [sessionEvents]

theorem runCalls_append (accepts : List Nat → Bool) (a b : List SessionCall) :
    ∀ (this : Option WasmStreamingWrap) (w : World),
    runCalls accepts (a ++ b) this w =
      (match runCalls accepts a this w with
        | Result.ok r w1 => runCalls accepts b r w1
        | Result.fatal f w1 => Result.fatal f w1) := by
  induction a with
  | nil => intro this w; rfl
  | cons c cs ih =>
    intro this w
    simp only [List.cons_append, runCalls]
    cases h : c.run accepts this w with
    | ok r w1 => simp [ih]
    | fatal f w1 => simp

theorem immediate_of_size_zero (hookResult : Option Value) (m : CompiledWasmModule) (w : World)
    (h : m.Serialize.owned.size = 0) :
    WasmStreamingClient.immediate hookResult m w = Result.ok () w := by
  simp [WasmStreamingClient.immediate, h]

theorem runImmediates_append_of_size_zero (hookResult : Option Value) (m : CompiledWasmModule)
    (h : m.Serialize.owned.size = 0) (q : List CompiledWasmModule) :
    ∀ w : World, runImmediates hookResult (q ++ [m]) w = runImmediates hookResult q w := by
  induction q with
  | nil => intro w; simp [runImmediates, immediate_of_size_zero hookResult m w h]
  | cons a q ih =>
    intro w
    simp only [List.cons_append, runImmediates]
    cases WasmStreamingClient.immediate hookResult a w with
    | ok r w1 => simp [ih]
    | fatal f w1 => simp

/-! ## The claims -/

theorem memcpy_take (memory : Nat → Nat) (k : Nat) :
    ∀ (n src : Nat), n ≤ k → (memcpy memory src k).take n = memcpy memory src n := by
  induction k with
  | zero => intro n src hn; simp [Nat.le_zero.mp hn, memcpy]
  | succ k ih =>
    intro n src hn
    cases n with
    | zero => simp [memcpy]
    | succ n => simp [memcpy, ih n (src + 1) (Nat.le_of_succ_le_succ hn)]

/-- On a 64-bit little-endian layout, a serialization of at most eight bytes is handed to
the hook as the low bytes of the pointer `owned.buffer`, whatever the serialized bytes are. -/
theorem copied_bytes_of_layout (s : Serialized) (hl : s.layout) (hn : s.owned.size ≤ 8) :
    memcpy s.memory s.ownedAddr s.owned.size = (le64 s.owned.buffer).take s.owned.size := by
  rw [← hl.1, memcpy_take s.memory 8 s.owned.size s.ownedAddr hn]

/-- C1 (code bug). The completion path copies `owned.size` bytes from `&owned.buffer`,
the address of the `OwnedBuffer` object, and not from the address `owned.buffer` holds.
For the module `exampleModule`, laid out as on a 64-bit little-endian machine and
serialized to the bytes 1, 2, 3, `OnModuleCompiled` queues one closure, and the closure
passes to the cache-store hook a buffer of the right length that holds 0, 16, 0: the low
bytes of the pointer 0x1000. -/
theorem C1_copy_reads_the_owned_object :
    exampleModule.Serialize.layout ∧
    exampleModule.Serialize.bytes = [1, 2, 3] ∧
    (WasmStreamingClient.OnModuleCompiled exampleModule
      exampleWorld).env.threadsafe_immediates.length = 1 ∧
    cacheStoreCalls (WasmStreamingClient.immediate (some Value.undefined) exampleModule
        exampleWorld).world.trace =
      [(Value.function 2, [Value.string "a.wasm", Value.arrayBuffer ⟨[0, 16, 0]⟩])] := by
  refine ⟨by decide, by decide, rfl, by decide⟩

/-- C6. For every compiled module whose serialization has zero length, the closure of
the completion path returns without a cache-store call and without a failure, and the
control thread ends in the same outcome as if the module had never been reported. -/
theorem C6_empty_serialization_is_dropped (hookResult : Option Value) (m : CompiledWasmModule)
    (w : World) (hsize : m.Serialize.owned.size = 0) :
    WasmStreamingClient.immediate hookResult m w = Result.ok () w ∧
    drainImmediates hookResult (WasmStreamingClient.OnModuleCompiled m w) =
      drainImmediates hookResult w := by
  refine ⟨immediate_of_size_zero hookResult m w hsize, ?_⟩
  simp only [drainImmediates, WasmStreamingClient.OnModuleCompiled]
  exact runImmediates_append_of_size_zero hookResult m hsize _ _

/-- C6, at an input: the module `emptyModule` reported in `exampleWorld`. -/
theorem C6_empty_serialization_is_dropped_witness :
    emptyModule.Serialize.owned.size = 0 ∧
    WasmStreamingClient.immediate (some Value.undefined) emptyModule exampleWorld =
      Result.ok () exampleWorld ∧
    drainImmediates (some Value.undefined)
        (WasmStreamingClient.OnModuleCompiled emptyModule exampleWorld) =
      drainImmediates (some Value.undefined) exampleWorld :=
  ⟨rfl, C6_empty_serialization_is_dropped (some Value.undefined) emptyModule exampleWorld rfl⟩

/-- C10, as stated, fails: `OnModuleCompiled` for a module that serializes to zero bytes
leaves one closure on the queue of the control thread. -/
theorem C10_counterexample :
    emptyModule.Serialize.owned.size = 0 ∧
    (WasmStreamingClient.OnModuleCompiled emptyModule World.initial).env.threadsafe_immediates.length
      = 1 := by
  exact ⟨rfl, rfl⟩

/-- C10, amended. For every completion notification `OnModuleCompiled` puts exactly one
closure, holding the module as it is, at the end of the queue of the control thread and
does nothing else; the module is serialized and tested for emptiness inside the closure,
which for a serialization of zero bytes returns at once. -/
theorem C10_task_is_always_enqueued (hookResult : Option Value) (m : CompiledWasmModule)
    (url : String) (memory : Nat → Nat) (buffer ownedAddr : Nat) (w w1 : World) :
    (WasmStreamingClient.OnModuleCompiled m w).env.threadsafe_immediates =
      w.env.threadsafe_immediates ++ [m] ∧
    (WasmStreamingClient.OnModuleCompiled m w).trace = w.trace ∧
    WasmStreamingClient.immediate hookResult ⟨url, ⟨memory, ⟨buffer, 0⟩, ownedAddr⟩⟩ w1 =
      Result.ok () w1 := by
  exact ⟨rfl, rfl, immediate_of_size_zero _ _ _ rfl⟩

/-- C8, as stated, fails: with no provider registered the request does fail, but only
after the session has been constructed (the handle was unpacked for the new wrap); the
world at the failure is not the world the request arrived in. -/
theorem C8_counterexample :
    World.initial.env.wasm_streaming_callback = none ∧
    (WasmStreamingCallback exampleAccepts idleScript [Value.object 0] (Value.managed 7)
        World.initial).isOk = false ∧
    (WasmStreamingCallback exampleAccepts idleScript [Value.object 0] (Value.managed 7)
        World.initial).world.trace = [Event.Unpack (Value.managed 7)] := by
  exact ⟨rfl, rfl, rfl⟩

/-- C8, amended. For every request that arrives while no provider hook is registered,
`WasmStreamingCallback` does not test the provider when it resolves it: it constructs
the session, which unpacks the streaming handle from the request data, and aborts the
process when it calls through the empty provider handle. No provider call is made. -/
theorem C8_no_provider_fails_at_the_call (accepts : List Nat → Bool) (script : Script)
    (args : List Value) (Data : Value) (w : World)
    (hnone : w.env.wasm_streaming_callback = none) :
    WasmStreamingCallback accepts script args Data w =
      Result.fatal (Fatal.emptyHandle "wasm_streaming_callback") (w.log (Event.Unpack Data)) ∧
    providerCalls (WasmStreamingCallback accepts script args Data w).world.trace =
      providerCalls w.trace := by
  have h : WasmStreamingCallback accepts script args Data w =
      Result.fatal (Fatal.emptyHandle "wasm_streaming_callback") (w.log (Event.Unpack Data)) := by
    simp [WasmStreamingCallback, hnone, WasmStreamingWrap.Create, WasmStreamingWrap.New, arg]
  refine ⟨h, ?_⟩
  rw [h]
  simp [Result.world, World.log, providerCalls_append, providerCalls]

/-- C8, amended, at an input: a request in the initial world. -/
theorem C8_no_provider_fails_at_the_call_witness :
    World.initial.env.wasm_streaming_callback = none ∧
    WasmStreamingCallback exampleAccepts idleScript [Value.object 0] (Value.managed 7)
        World.initial =
      Result.fatal (Fatal.emptyHandle "wasm_streaming_callback")
        (World.initial.log (Event.Unpack (Value.managed 7))) ∧
    providerCalls (WasmStreamingCallback exampleAccepts idleScript [Value.object 0]
        (Value.managed 7) World.initial).world.trace = providerCalls World.initial.trace :=
  ⟨rfl, C8_no_provider_fails_at_the_call exampleAccepts idleScript [Value.object 0]
    (Value.managed 7) World.initial rfl⟩

/-- C4, as stated, fails: on a session that holds the store of an accepted call, a
call that the engine rejects returns false and the session still holds that store. -/
theorem C4_counterexample :
    ∃ (wrap1 wrap2 : WasmStreamingWrap) (w1 w2 : World),
      WasmStreamingWrap.SetCompiledModuleBytes exampleAccepts (some exampleWrap)
          [Value.arrayBufferView exampleView] exampleWorld =
        Result.ok (some wrap1, Value.boolean true) w1 ∧
      WasmStreamingWrap.SetCompiledModuleBytes exampleAccepts (some wrap1)
          [Value.arrayBufferView otherView] w1 =
        Result.ok (some wrap2, Value.boolean false) w2 ∧
      wrap2.cached_backing_store_ = some ⟨[10, 20, 30, 40]⟩ :=
  ⟨_, _, _, _, rfl, rfl, rfl⟩

/-- C4, amended. For every session state and every buffer view, `setCompiledModuleBytes`
hands the bytes of the view to the engine and returns its answer; when the answer is
true the session holds the backing store of the supplied view afterwards, and when it is
false the session holds what it held before the call. -/
theorem C4_store_kept_on_accept_unchanged_on_reject (accepts : List Nat → Bool)
    (wrap : WasmStreamingWrap) (ui : ArrayBufferView) (rest : List Value) (w : World) :
    ∃ wrap1 w1,
      WasmStreamingWrap.SetCompiledModuleBytes accepts (some wrap)
          (Value.arrayBufferView ui :: rest) w =
        Result.ok (some wrap1, Value.boolean (accepts ui.bytes)) w1 ∧
      wrap1.streaming_ = wrap.streaming_ ∧
      wrap1.cached_backing_store_ =
        (if accepts ui.bytes = true then some ui.Buffer else wrap.cached_backing_store_) ∧
      w1.trace = w.trace ++
        [Event.streaming wrap.streaming_ (StreamingCall.SetCompiledModuleBytes ui.bytes)] := by
  cases ha : accepts ui.bytes
  · exact ⟨wrap, w.log _, by simp [WasmStreamingWrap.SetCompiledModuleBytes, arg, ha], rfl,
      by simp, rfl⟩
  · exact ⟨{ wrap with cached_backing_store_ := some ui.Buffer }, w.log _,
      by simp [WasmStreamingWrap.SetCompiledModuleBytes, arg, ha], rfl, by simp, rfl⟩

/-- C3, as stated, fails: after `finish()` a call of `onBytesReceived` returns like any
other and its bytes reach the compiler handle. -/
theorem C3_counterexample :
    ∃ w1 : World,
      runCalls exampleAccepts
          [SessionCall.finish [], SessionCall.onBytesReceived [Value.arrayBufferView exampleView]]
          (some exampleWrap) exampleWorld =
        Result.ok (some exampleWrap) w1 ∧
      w1.trace =
        [Event.streaming (WasmStreaming.Unpack (Value.managed 7)) StreamingCall.Finish,
         Event.streaming (WasmStreaming.Unpack (Value.managed 7))
           (StreamingCall.OnBytesReceived [20, 30])] :=
  ⟨_, rfl, rfl⟩

/-- C3, amended. The session wrap keeps no record of `finish()` or `abort(reason)`: for
every session and every sequence `pre` of earlier calls, those two included, a later call
`c` of a session method whose argument passes the type check of the method returns and
is forwarded to the compiler handle as the primitive of the same name. -/
theorem C3_later_calls_are_forwarded (accepts : List Nat → Bool) (pre : List SessionCall)
    (c : SessionCall) (wrap : WasmStreamingWrap) (w : World)
    (hpre : ∀ p ∈ pre, p.wellTyped = true) (hc : c.wellTyped = true) :
    ∃ wrap1 w1 wrap2 w2 p rest,
      runCalls accepts pre (some wrap) w = Result.ok (some wrap1) w1 ∧
      runCalls accepts (pre ++ [c]) (some wrap) w = Result.ok (some wrap2) w2 ∧
      c.primitive = some p ∧
      w2.trace = w1.trace ++ Event.streaming wrap.streaming_ p :: rest := by
  obtain ⟨wrap1, hrun1, hs1⟩ := runCalls_ok accepts pre wrap w hpre
  obtain ⟨wrap2, v, hrun2, _⟩ := SessionCall.run_ok accepts c wrap1
    ⟨w.env, w.trace ++ sessionEvents w.env.wasm_streaming_cache_callback.isSome wrap.streaming_ pre⟩
    hc
  have hev : ∃ p rest, c.primitive = some p ∧
      c.events w.env.wasm_streaming_cache_callback.isSome wrap.streaming_ =
        Event.streaming wrap.streaming_ p :: rest := by
    cases c with
    | setURL args =>
      simp only [SessionCall.wellTyped] at hc
      cases h : arg args 0 <;> simp [h, Value.IsString] at hc
      simp [SessionCall.events, SessionCall.primitive, h]
    | setCompiledModuleBytes args =>
      simp only [SessionCall.wellTyped] at hc
      cases h : arg args 0 <;> simp [h, Value.IsArrayBufferView] at hc
      simp [SessionCall.events, SessionCall.primitive, h]
    | onBytesReceived args =>
      simp only [SessionCall.wellTyped] at hc
      cases h : arg args 0 <;> simp [h, Value.IsArrayBufferView] at hc
      simp [SessionCall.events, SessionCall.primitive, h]
    | abort args => simp [SessionCall.events, SessionCall.primitive]
    | finish args => simp [SessionCall.events, SessionCall.primitive]
  obtain ⟨p, rest, hp, hevents⟩ := hev
  rw [hs1] at hrun2
  refine ⟨wrap1, _, wrap2,
    ⟨w.env, (w.trace ++
        sessionEvents w.env.wasm_streaming_cache_callback.isSome wrap.streaming_ pre) ++
      c.events w.env.wasm_streaming_cache_callback.isSome wrap.streaming_⟩,
    p, rest, hrun1, ?_, hp, ?_⟩
  · rw [runCalls_append, hrun1]
    simp only [runCalls, hrun2]
  · simp [hevents]

/-- C3, amended, at an input: `onBytesReceived` after `finish()` and `abort(undefined)`. -/
theorem C3_later_calls_are_forwarded_witness :
    ∃ wrap1 w1 wrap2 w2 p rest,
      runCalls exampleAccepts [SessionCall.finish [], SessionCall.abort []] (some exampleWrap)
          exampleWorld = Result.ok (some wrap1) w1 ∧
      runCalls exampleAccepts
          ([SessionCall.finish [], SessionCall.abort []] ++
            [SessionCall.onBytesReceived [Value.arrayBufferView exampleView]])
          (some exampleWrap) exampleWorld = Result.ok (some wrap2) w2 ∧
      (SessionCall.onBytesReceived [Value.arrayBufferView exampleView]).primitive = some p ∧
      w2.trace = w1.trace ++ Event.streaming exampleWrap.streaming_ p :: rest :=
  C3_later_calls_are_forwarded exampleAccepts [SessionCall.finish [], SessionCall.abort []]
    (SessionCall.onBytesReceived [Value.arrayBufferView exampleView]) exampleWrap exampleWorld
    (by decide) (by decide)

theorem cacheStoreCalls_events (hook : Bool) (h : WasmStreaming) (c : SessionCall) :
    cacheStoreCalls (c.events hook h) = [] := by
  cases c <;> simp only [SessionCall.events, SessionCall.primitive] <;>
    first
      | (split <;> (try split) <;> simp_all [cacheStoreCalls])
      | simp [cacheStoreCalls]

theorem cacheStoreCalls_sessionEvents (hook : Bool) (h : WasmStreaming) (cs : List SessionCall) :
    cacheStoreCalls (sessionEvents hook h cs) = [] := by
  induction cs with
  | nil => rfl
  | cons c cs ih => simp [sessionEvents, cacheStoreCalls_append, cacheStoreCalls_events, ih]

/-- C5. For every request in which the provider hook, registered as `f`, throws a value
`e` (after session method calls that pass their type checks), `WasmStreamingCallback`
returns with no exception pending; the last two things it does are to unpack the
streaming handle from the request data again and to call `Abort` on that handle with
`e`; it makes no cache-store call and leaves the environment as it was. -/
theorem C5_provider_error_aborts_the_handle (accepts : List Nat → Bool) (script : Script)
    (args : List Value) (Data : Value) (w : World) (f e : Value)
    (hfn : w.env.wasm_streaming_callback = some f)
    (hcalls : ∀ c ∈ script.calls, c.wellTyped = true)
    (hthrow : script.throws = some e) :
    ∃ w1 before,
      WasmStreamingCallback accepts script args Data w = Result.ok none w1 ∧
      w1.trace = before ++
        [Event.Unpack Data, Event.streaming (WasmStreaming.Unpack Data) (StreamingCall.Abort e)] ∧
      cacheStoreCalls w1.trace = cacheStoreCalls w.trace ∧
      w1.env = w.env := by
  obtain ⟨wrap1, hrun, _⟩ := runCalls_ok accepts script.calls
    ⟨WasmStreaming.Unpack Data, none⟩
    ⟨w.env, (w.trace ++ [Event.Unpack Data]) ++
      [Event.providerCall f [arg args 0, Value.wrap Data,
        (match w.env.wasm_streaming_cache_handler with
          | none => Value.undefined
          | some h => h)]]⟩ hcalls
  have hdef : WasmStreamingCallback accepts script args Data w =
      Result.ok none
        ⟨w.env, (((w.trace ++ [Event.Unpack Data]) ++
          [Event.providerCall f [arg args 0, Value.wrap Data,
            (match w.env.wasm_streaming_cache_handler with
              | none => Value.undefined
              | some h => h)]]) ++
          sessionEvents w.env.wasm_streaming_cache_callback.isSome (WasmStreaming.Unpack Data)
            script.calls ++ [Event.Unpack Data]) ++
          [Event.streaming (WasmStreaming.Unpack Data) (StreamingCall.Abort e)]⟩ := by
    simp only [WasmStreamingCallback, hfn, WasmStreamingWrap.Create, WasmStreamingWrap.New,
      World.log, arg, List.getD_cons_zero, hthrow]
    simp only [arg] at hrun
    rw [hrun]
  refine ⟨_, ((w.trace ++ [Event.Unpack Data]) ++
      [Event.providerCall f [arg args 0, Value.wrap Data,
        (match w.env.wasm_streaming_cache_handler with
          | none => Value.undefined
          | some h => h)]]) ++
      sessionEvents w.env.wasm_streaming_cache_callback.isSome (WasmStreaming.Unpack Data)
        script.calls, hdef, ?_, ?_, rfl⟩
  · simp only [List.append_assoc, List.singleton_append]
  · simp [cacheStoreCalls_append, cacheStoreCalls, cacheStoreCalls_sessionEvents]

/-- C5, at an input: the provider `throwingScript` called for a request in `exampleWorld`. -/
theorem C5_provider_error_aborts_the_handle_witness :
    ∃ w1 before,
      WasmStreamingCallback exampleAccepts throwingScript [Value.object 0] (Value.managed 7)
          exampleWorld = Result.ok none w1 ∧
      w1.trace = before ++
        [Event.Unpack (Value.managed 7),
         Event.streaming (WasmStreaming.Unpack (Value.managed 7))
           (StreamingCall.Abort (Value.string "boom"))] ∧
      cacheStoreCalls w1.trace = cacheStoreCalls exampleWorld.trace ∧
      w1.env = exampleWorld.env :=
  C5_provider_error_aborts_the_handle exampleAccepts throwingScript [Value.object 0]
    (Value.managed 7) exampleWorld (Value.function 1) (Value.string "boom") rfl (by decide) rfl

theorem runCalls_onBytesReceived (accepts : List Nat → Bool) (wrap : WasmStreamingWrap)
    (views : List ArrayBufferView) :
    ∀ w : World, runCalls accepts (views.map onBytesReceivedCall) (some wrap) w =
      Result.ok (some wrap)
        ⟨w.env, w.trace ++ views.map (fun v =>
          Event.streaming wrap.streaming_ (StreamingCall.OnBytesReceived v.bytes))⟩ := by
  induction views with
  | nil => intro w; simp [runCalls]
  | cons v vs ih =>
    intro w
    simp only [List.map_cons, runCalls, onBytesReceivedCall, SessionCall.run,
      WasmStreamingWrap.OnBytesReceived, arg, List.getD_cons_zero]
    have h := ih (w.log (Event.streaming wrap.streaming_ (StreamingCall.OnBytesReceived v.bytes)))
    simp only [onBytesReceivedCall] at h
    rw [h]
    simp [World.log]

theorem receivedBytes_of_views (h : WasmStreaming) (views : List ArrayBufferView) :
    receivedBytes (handleCalls h (views.map (fun v =>
      Event.streaming h (StreamingCall.OnBytesReceived v.bytes)))) =
      (views.map ArrayBufferView.bytes).flatten := by
  induction views with
  | nil => rfl
  | cons v vs ih => simp [handleCalls, receivedBytes, ih]

theorem bytes_of_inBounds (v : ArrayBufferView) (hb : v.inBounds) :
    v.bytes.length = v.ByteLength ∧
      ∀ i, i < v.ByteLength → v.bytes[i]? = v.Buffer.Data[v.ByteOffset + i]? := by
  unfold ArrayBufferView.inBounds at hb
  constructor
  · simp only [ArrayBufferView.bytes, List.length_take, List.length_drop]
    omega
  · intro i hi
    simp [ArrayBufferView.bytes, List.getElem?_take, hi]

/-- C9. For every session and every finite sequence of buffer views, each inside its
backing store, passed one by one to `onBytesReceived`: every call returns, the compiler
handle receives exactly one `OnBytesReceived` per view, in the order of the calls, the
one for a view carrying its `ByteLength` bytes, which are the bytes of its backing store
from index `ByteOffset` on; the bytes the handle has been given grow by the
concatenation of the contents of the views in call order. -/
theorem C9_chunks_reach_the_handle_in_order (accepts : List Nat → Bool)
    (wrap : WasmStreamingWrap) (views : List ArrayBufferView) (w : World)
    (hb : ∀ v ∈ views, v.inBounds) :
    ∃ w1,
      runCalls accepts (views.map onBytesReceivedCall) (some wrap) w =
        Result.ok (some wrap) w1 ∧
      w1.trace = w.trace ++ views.map (fun v =>
        Event.streaming wrap.streaming_ (StreamingCall.OnBytesReceived v.bytes)) ∧
      (∀ v ∈ views, v.bytes.length = v.ByteLength ∧
        ∀ i, i < v.ByteLength → v.bytes[i]? = v.Buffer.Data[v.ByteOffset + i]?) ∧
      receivedBytes (handleCalls wrap.streaming_ w1.trace) =
        receivedBytes (handleCalls wrap.streaming_ w.trace) ++
          (views.map ArrayBufferView.bytes).flatten := by
  refine ⟨_, runCalls_onBytesReceived accepts wrap views w, rfl,
    fun v hv => bytes_of_inBounds v (hb v hv), ?_⟩
  simp only [handleCalls_append, receivedBytes_append, receivedBytes_of_views]

/-- C9, at an input: a view of two bytes, an empty view and a view of one byte. -/
theorem C9_chunks_reach_the_handle_in_order_witness :
    ∃ w1,
      runCalls exampleAccepts
          ([exampleView, ⟨⟨[10, 20, 30, 40]⟩, 4, 0⟩, otherView].map onBytesReceivedCall)
          (some exampleWrap) exampleWorld = Result.ok (some exampleWrap) w1 ∧
      w1.trace = exampleWorld.trace ++
        [exampleView, ⟨⟨[10, 20, 30, 40]⟩, 4, 0⟩, otherView].map (fun v =>
          Event.streaming exampleWrap.streaming_ (StreamingCall.OnBytesReceived v.bytes)) ∧
      (∀ v ∈ [exampleView, ⟨⟨[10, 20, 30, 40]⟩, 4, 0⟩, otherView],
        v.bytes.length = v.ByteLength ∧
        ∀ i, i < v.ByteLength → v.bytes[i]? = v.Buffer.Data[v.ByteOffset + i]?) ∧
      receivedBytes (handleCalls exampleWrap.streaming_ w1.trace) =
        receivedBytes (handleCalls exampleWrap.streaming_ exampleWorld.trace) ++
          ([exampleView, ⟨⟨[10, 20, 30, 40]⟩, 4, 0⟩, otherView].map
            ArrayBufferView.bytes).flatten :=
  C9_chunks_reach_the_handle_in_order exampleAccepts exampleWrap
    [exampleView, ⟨⟨[10, 20, 30, 40]⟩, 4, 0⟩, otherView] exampleWorld (by decide)

theorem providerCalls_run (accepts : List Nat → Bool) (c : SessionCall)
    (this : Option WasmStreamingWrap) (w : World) :
    providerCalls (c.run accepts this w).world.trace = providerCalls w.trace := by
  cases this with
  | none =>
    cases c <;> simp [SessionCall.run, WasmStreamingWrap.SetURL,
      WasmStreamingWrap.SetCompiledModuleBytes, WasmStreamingWrap.OnBytesReceived,
      WasmStreamingWrap.Abort, WasmStreamingWrap.Finish, Result.world]
  | some wrap =>
    cases c with
    | setURL args =>
      simp only [SessionCall.run, WasmStreamingWrap.SetURL]
      cases arg args 0 <;> cases hk : w.env.wasm_streaming_cache_callback <;>
        simp [World.log, hk, providerCalls_append, providerCalls, Result.world]
    | setCompiledModuleBytes args =>
      simp only [SessionCall.run, WasmStreamingWrap.SetCompiledModuleBytes]
      cases harg : arg args 0 <;> try simp [Result.world]
      rename_i ui
      cases accepts ui.bytes <;>
        simp [World.log, providerCalls_append, providerCalls, Result.world]
    | onBytesReceived args =>
      simp only [SessionCall.run, WasmStreamingWrap.OnBytesReceived]
      cases arg args 0 <;> simp [World.log, providerCalls_append, providerCalls, Result.world]
    | abort args =>
      simp [SessionCall.run, WasmStreamingWrap.Abort, World.log, providerCalls_append,
        providerCalls, Result.world]
    | finish args =>
      simp [SessionCall.run, WasmStreamingWrap.Finish, World.log, providerCalls_append,
        providerCalls, Result.world]

theorem providerCalls_runCalls (accepts : List Nat → Bool) (cs : List SessionCall) :
    ∀ (this : Option WasmStreamingWrap) (w : World),
    providerCalls (runCalls accepts cs this w).world.trace = providerCalls w.trace := by
  induction cs with
  | nil => intro this w; rfl
  | cons c cs ih =>
    intro this w
    have h := providerCalls_run accepts c this w
    simp only [runCalls]
    cases hr : c.run accepts this w with
    | ok r w1 =>
      rw [hr] at h
      simp only [Result.world] at h
      simp only [ih, h]
    | fatal f w1 =>
      rw [hr] at h
      simpa [Result.world] using h

/-- The provider call of a request: one call, of the registered provider, whose third
argument is the cache handler when the handle is set and `undefined` when it is empty. -/
theorem providerCalls_WasmStreamingCallback (accepts : List Nat → Bool) (script : Script)
    (args : List Value) (Data : Value) (w : World) (f : Value)
    (hfn : w.env.wasm_streaming_callback = some f) :
    providerCalls (WasmStreamingCallback accepts script args Data w).world.trace =
      providerCalls w.trace ++ [(f, [arg args 0, Value.wrap Data,
        (match w.env.wasm_streaming_cache_handler with
          | none => Value.undefined
          | some h => h)])] := by
  have h := providerCalls_runCalls accepts script.calls (some ⟨WasmStreaming.Unpack Data, none⟩)
    ⟨w.env, (w.trace ++ [Event.Unpack Data]) ++
      [Event.providerCall f [arg args 0, Value.wrap Data,
        (match w.env.wasm_streaming_cache_handler with
          | none => Value.undefined
          | some h => h)]]⟩
  simp only [WasmStreamingCallback, hfn, WasmStreamingWrap.Create, WasmStreamingWrap.New,
    World.log, arg, List.getD_cons_zero]
  simp only [arg] at h
  cases hr : runCalls accepts script.calls (some ⟨WasmStreaming.Unpack Data, none⟩)
    ⟨w.env, (w.trace ++ [Event.Unpack Data]) ++
      [Event.providerCall f [args.getD 0 Value.undefined, Value.wrap Data,
        (match w.env.wasm_streaming_cache_handler with
          | none => Value.undefined
          | some h => h)]]⟩ with
  | fatal x w3 =>
    rw [hr] at h
    simp only [Result.world] at h ⊢
    rw [h]
    simp [providerCalls_append, providerCalls]
  | ok r w3 =>
    rw [hr] at h
    simp only [Result.world] at h
    cases script.throws with
    | none =>
      simp only [Result.world]
      rw [h]
      simp [providerCalls_append, providerCalls]
    | some e =>
      simp only [Result.world, providerCalls_append, h]
      simp [providerCalls_append, providerCalls]

theorem RegistryCall.run_paired (c : RegistryCall) (w w1 : World)
    (h : c.run w = Result.ok () w1) (hp : w.env.paired) :
    w1.env.paired ∧ w1.trace = w.trace := by
  cases c with
  | setWasmStreamingCallback args =>
    simp only [RegistryCall.run, SetWasmStreamingCallback] at h
    split at h
    · injection h with _ h2
      subst h2
      exact ⟨hp, rfl⟩
    · cases h
  | setWasmStreamingCacheHandler args =>
    simp only [RegistryCall.run, SetWasmStreamingCacheHandler] at h
    split at h <;>
    · injection h with _ h2
      subst h2
      exact ⟨rfl, rfl⟩

theorem runRegistry_paired (cs : List RegistryCall) :
    ∀ (w w1 : World), runRegistry cs w = Result.ok () w1 → w.env.paired →
      w1.env.paired ∧ w1.trace = w.trace := by
  induction cs with
  | nil =>
    intro w w1 h hp
    simp only [runRegistry] at h
    injection h with _ h2
    subst h2
    exact ⟨hp, rfl⟩
  | cons c cs ih =>
    intro w w1 h hp
    simp only [runRegistry] at h
    cases hr : c.run w with
    | ok r w2 =>
      rw [hr] at h
      obtain ⟨hp2, ht2⟩ := RegistryCall.run_paired c w w2 hr hp
      obtain ⟨hp1, ht1⟩ := ih w2 w1 h hp2
      exact ⟨hp1, ht1.trans ht2⟩
    | fatal f w2 =>
      rw [hr] at h
      cases h

theorem runRegistry_append (a b : List RegistryCall) :
    ∀ w : World, runRegistry (a ++ b) w =
      (match runRegistry a w with
        | Result.ok _ w1 => runRegistry b w1
        | Result.fatal f w1 => Result.fatal f w1) := by
  induction a with
  | nil => intro w; rfl
  | cons c cs ih =>
    intro w
    simp only [List.cons_append, runRegistry]
    cases c.run w with
    | ok r w1 => simp [ih]
    | fatal f w1 => simp

theorem runRegistry_callbacks (cs : List RegistryCall) :
    ∀ (w w1 : World), runRegistry cs w = Result.ok () w1 → (∀ c ∈ cs, c.isCallback = true) →
      w1.env.wasm_streaming_cache_handler = w.env.wasm_streaming_cache_handler ∧
      w1.env.wasm_streaming_cache_callback = w.env.wasm_streaming_cache_callback := by
  induction cs with
  | nil =>
    intro w w1 h _
    simp only [runRegistry] at h
    injection h with _ h2
    subst h2
    exact ⟨rfl, rfl⟩
  | cons c cs ih =>
    intro w w1 h hcb
    simp only [runRegistry] at h
    have hc := hcb c (List.mem_cons_self _ _)
    cases c with
    | setWasmStreamingCacheHandler args => simp [RegistryCall.isCallback] at hc
    | setWasmStreamingCallback args =>
      simp only [RegistryCall.run, SetWasmStreamingCallback] at h
      by_cases hf : (arg args 0).IsFunction = true
      · simp only [hf, if_true] at h
        have h3 := ih _ w1 h (fun d hd => hcb d (List.mem_cons_of_mem _ hd))
        exact h3
      · simp [hf] at h

theorem runRegistry_handlers (cs : List RegistryCall) :
    ∀ (w w1 : World), runRegistry cs w = Result.ok () w1 → (∀ c ∈ cs, c.isCallback = false) →
      w1.env.wasm_streaming_callback = w.env.wasm_streaming_callback := by
  induction cs with
  | nil =>
    intro w w1 h _
    simp only [runRegistry] at h
    injection h with _ h2
    subst h2
    rfl
  | cons c cs ih =>
    intro w w1 h hcb
    simp only [runRegistry] at h
    have hc := hcb c (List.mem_cons_self _ _)
    cases c with
    | setWasmStreamingCallback args => simp [RegistryCall.isCallback] at hc
    | setWasmStreamingCacheHandler args =>
      simp only [RegistryCall.run, SetWasmStreamingCacheHandler] at h
      by_cases hn : (arg args 0).IsNull = true
      · simp only [hn, if_true] at h
        have h3 := ih _ w1 h (fun d hd => hcb d (List.mem_cons_of_mem _ hd))
        exact h3
      · simp only [hn, if_false] at h
        have h3 := ih _ w1 h (fun d hd => hcb d (List.mem_cons_of_mem _ hd))
        exact h3

/-- C7. In every world reached from the initial one by a sequence of
`setWasmStreamingCallback` and `setWasmStreamingCacheHandler` calls:
(1) the cache handler and the cache-store hook are both set or both cleared;
(2) a request makes one provider call whose third argument is the registered cache
handler when a cache-store hook is registered and `undefined` when none is;
(3) when the last `setWasmStreamingCacheHandler` call had `null` as its first argument,
both handles are empty and the third argument is `undefined`;
(4) when the last `setWasmStreamingCacheHandler` call had a first argument other than
`null`, the handler is that first argument, the cache-store hook is the second argument,
and the third argument of the provider call is that first argument;
(5) when `setWasmStreamingCacheHandler` was never called, both handles are empty;
(6) the provider is the argument of the last `setWasmStreamingCallback` call. -/
theorem C7_cache_handler_and_hook_go_together (calls : List RegistryCall) (w : World)
    (hreach : runRegistry calls World.initial = Result.ok () w) :
    w.env.wasm_streaming_cache_handler.isSome = w.env.wasm_streaming_cache_callback.isSome ∧
    (∀ accepts script args Data f, w.env.wasm_streaming_callback = some f →
      ∃ third,
        providerCalls (WasmStreamingCallback accepts script args Data w).world.trace =
          [(f, [arg args 0, Value.wrap Data, third])] ∧
        (∀ hook, w.env.wasm_streaming_cache_callback = some hook →
          w.env.wasm_streaming_cache_handler = some third) ∧
        (w.env.wasm_streaming_cache_callback = none → third = Value.undefined)) ∧
    (∀ before x more,
      calls = before ++ RegistryCall.setWasmStreamingCacheHandler (Value.null :: x) :: more →
      (∀ c ∈ more, c.isCallback = true) →
      (w.env.wasm_streaming_cache_handler = none ∧
        w.env.wasm_streaming_cache_callback = none) ∧
      ∀ accepts script args Data f, w.env.wasm_streaming_callback = some f →
        providerCalls (WasmStreamingCallback accepts script args Data w).world.trace =
          [(f, [arg args 0, Value.wrap Data, Value.undefined])]) ∧
    (∀ before reg more,
      calls = before ++ RegistryCall.setWasmStreamingCacheHandler reg :: more →
      (arg reg 0).IsNull = false →
      (∀ c ∈ more, c.isCallback = true) →
      (w.env.wasm_streaming_cache_handler = some (arg reg 0) ∧
        w.env.wasm_streaming_cache_callback = some (arg reg 1)) ∧
      ∀ accepts script args Data f, w.env.wasm_streaming_callback = some f →
        providerCalls (WasmStreamingCallback accepts script args Data w).world.trace =
          [(f, [arg args 0, Value.wrap Data, arg reg 0])]) ∧
    ((∀ c ∈ calls, c.isCallback = true) →
      w.env.wasm_streaming_cache_handler = none ∧
        w.env.wasm_streaming_cache_callback = none) ∧
    (∀ before reg more,
      calls = before ++ RegistryCall.setWasmStreamingCallback reg :: more →
      (∀ c ∈ more, c.isCallback = false) →
      w.env.wasm_streaming_callback = some (arg reg 0)) := by
  obtain ⟨hp, ht⟩ := runRegistry_paired calls World.initial w hreach rfl
  have ht0 : w.trace = [] := ht
  refine ⟨hp, ?_, ?_, ?_, ?_, ?_⟩
  · intro accepts script args Data f hfn
    have hcall := providerCalls_WasmStreamingCallback accepts script args Data w f hfn
    rw [ht0] at hcall
    refine ⟨_, hcall, ?_, ?_⟩
    · intro hook hhook
      unfold Environment.paired at hp
      cases hh : w.env.wasm_streaming_cache_handler with
      | none => simp [hh, hhook] at hp
      | some v => rfl
    · intro hnone
      unfold Environment.paired at hp
      cases hh : w.env.wasm_streaming_cache_handler with
      | none => rfl
      | some v => simp [hh, hnone] at hp
  · intro before x more hsplit hmore
    rw [hsplit, runRegistry_append] at hreach
    cases hb : runRegistry before World.initial with
    | fatal g wb => rw [hb] at hreach; cases hreach
    | ok r wb =>
      rw [hb] at hreach
      simp only [runRegistry, RegistryCall.run, SetWasmStreamingCacheHandler, arg,
        List.getD_cons_zero, Value.IsNull, if_true] at hreach
      obtain ⟨hh, hk⟩ := runRegistry_callbacks more _ w hreach hmore
      simp only at hh hk
      refine ⟨⟨hh, hk⟩, ?_⟩
      intro accepts script args Data f hfn
      have hcall := providerCalls_WasmStreamingCallback accepts script args Data w f hfn
      rw [ht0] at hcall
      rw [hcall, hh]
      rfl
  · intro before reg more hsplit hnn hmore
    rw [hsplit, runRegistry_append] at hreach
    cases hb : runRegistry before World.initial with
    | fatal g wb => rw [hb] at hreach; cases hreach
    | ok r wb =>
      rw [hb] at hreach
      simp only [runRegistry, RegistryCall.run, SetWasmStreamingCacheHandler, hnn,
        Bool.false_eq_true, if_false] at hreach
      obtain ⟨hh, hk⟩ := runRegistry_callbacks more _ w hreach hmore
      simp only at hh hk
      refine ⟨⟨hh, hk⟩, ?_⟩
      intro accepts script args Data f hfn
      have hcall := providerCalls_WasmStreamingCallback accepts script args Data w f hfn
      rw [ht0] at hcall
      rw [hcall, hh]
      rfl
  · intro hall
    exact runRegistry_callbacks calls World.initial w hreach hall
  · intro before reg more hsplit hmore
    rw [hsplit, runRegistry_append] at hreach
    cases hb : runRegistry before World.initial with
    | fatal g wb => rw [hb] at hreach; cases hreach
    | ok r wb =>
      rw [hb] at hreach
      simp only [runRegistry, RegistryCall.run, SetWasmStreamingCallback] at hreach
      by_cases hf : (arg reg 0).IsFunction = true
      · simp only [hf, if_true] at hreach
        have h3 := runRegistry_handlers more _ w hreach hmore
        exact h3
      · simp [hf] at hreach

/-- C7, at two inputs. The registrations `handlerRegistration` end with the cache
handler object 1 and the hook function 2 registered: the request that follows passes
object 1 as third argument to the provider function 4. The registrations
`exampleRegistration` end with the cache handler cleared and the provider function 3:
the request that follows passes `undefined`. -/
theorem C7_cache_handler_and_hook_go_together_witness :
    (runRegistry handlerRegistration World.initial = Result.ok () handlerWorld ∧
      (handlerWorld.env.wasm_streaming_cache_handler = some (Value.object 1) ∧
        handlerWorld.env.wasm_streaming_cache_callback = some (Value.function 2)) ∧
      providerCalls (WasmStreamingCallback exampleAccepts idleScript [Value.object 9]
          (Value.managed 7) handlerWorld).world.trace =
        [(Value.function 4, [Value.object 9, Value.wrap (Value.managed 7), Value.object 1])] ∧
      handlerWorld.env.wasm_streaming_callback = some (Value.function 4)) ∧
    (runRegistry exampleRegistration World.initial = Result.ok () clearedWorld ∧
      clearedWorld.env.wasm_streaming_cache_handler.isSome =
        clearedWorld.env.wasm_streaming_cache_callback.isSome ∧
      providerCalls (WasmStreamingCallback exampleAccepts idleScript [Value.object 9]
          (Value.managed 7) clearedWorld).world.trace =
        [(Value.function 3, [Value.object 9, Value.wrap (Value.managed 7),
          Value.undefined])]) :=
  ⟨⟨rfl,
    ((C7_cache_handler_and_hook_go_together handlerRegistration handlerWorld rfl).2.2.2.1
      [RegistryCall.setWasmStreamingCacheHandler [Value.null, Value.function 5],
       RegistryCall.setWasmStreamingCallback [Value.function 3]]
      [Value.object 1, Value.function 2]
      [RegistryCall.setWasmStreamingCallback [Value.function 4]] rfl rfl (by decide)).1,
    ((C7_cache_handler_and_hook_go_together handlerRegistration handlerWorld rfl).2.2.2.1
      [RegistryCall.setWasmStreamingCacheHandler [Value.null, Value.function 5],
       RegistryCall.setWasmStreamingCallback [Value.function 3]]
      [Value.object 1, Value.function 2]
      [RegistryCall.setWasmStreamingCallback [Value.function 4]] rfl rfl (by decide)).2
      exampleAccepts idleScript [Value.object 9] (Value.managed 7) (Value.function 4) rfl,
    (C7_cache_handler_and_hook_go_together handlerRegistration handlerWorld rfl).2.2.2.2.2
      [RegistryCall.setWasmStreamingCacheHandler [Value.null, Value.function 5],
       RegistryCall.setWasmStreamingCallback [Value.function 3],
       RegistryCall.setWasmStreamingCacheHandler [Value.object 1, Value.function 2]]
      [Value.function 4] [] rfl (by decide)⟩,
   ⟨rfl, (C7_cache_handler_and_hook_go_together exampleRegistration clearedWorld rfl).1,
    ((C7_cache_handler_and_hook_go_together exampleRegistration clearedWorld rfl).2.2.1
      [RegistryCall.setWasmStreamingCallback [Value.function 1],
       RegistryCall.setWasmStreamingCacheHandler [Value.object 1, Value.function 2]]
      [Value.function 2] [RegistryCall.setWasmStreamingCallback [Value.function 3]] rfl
      (by decide)).2 exampleAccepts idleScript [Value.object 9] (Value.managed 7)
      (Value.function 3) rfl⟩⟩

theorem lastUrl_events (hook : Bool) (h : WasmStreaming) (c : SessionCall) :
    lastUrl (handleCalls h (c.events hook h)) = c.url := by
  cases c with
  | setURL args =>
    simp only [SessionCall.events, SessionCall.primitive, SessionCall.url]
    cases arg args 0 <;> cases hook <;> simp [handleCalls, lastUrl]
  | setCompiledModuleBytes args =>
    simp only [SessionCall.events, SessionCall.primitive, SessionCall.url]
    cases arg args 0 <;> simp [handleCalls, lastUrl]
  | onBytesReceived args =>
    simp only [SessionCall.events, SessionCall.primitive, SessionCall.url]
    cases arg args 0 <;> simp [handleCalls, lastUrl]
  | abort args => simp [SessionCall.events, SessionCall.primitive, SessionCall.url, handleCalls, lastUrl]
  | finish args => simp [SessionCall.events, SessionCall.primitive, SessionCall.url, handleCalls, lastUrl]

theorem hasClient_events (h : WasmStreaming) (c : SessionCall) (u : String)
    (hu : c.url = some u) : hasClient (handleCalls h (c.events true h)) = true := by
  cases c with
  | setURL args =>
    simp only [SessionCall.url] at hu
    simp only [SessionCall.events, SessionCall.primitive]
    cases harg : arg args 0 <;> simp [harg] at hu
    simp [handleCalls, hasClient]
  | setCompiledModuleBytes args => simp [SessionCall.url] at hu
  | onBytesReceived args => simp [SessionCall.url] at hu
  | abort args => simp [SessionCall.url] at hu
  | finish args => simp [SessionCall.url] at hu

theorem lastUrl_sessionEvents (hook : Bool) (h : WasmStreaming) (cs : List SessionCall) :
    lastUrl (handleCalls h (sessionEvents hook h cs)) = lastSetURL cs := by
  induction cs with
  | nil => rfl
  | cons c cs ih =>
    simp only [sessionEvents, handleCalls_append, lastUrl_append, ih, lastUrl_events, lastSetURL]

theorem hasClient_sessionEvents (h : WasmStreaming) (cs : List SessionCall) :
    ∀ u : String, lastSetURL cs = some u →
      hasClient (handleCalls h (sessionEvents true h cs)) = true := by
  induction cs with
  | nil => intro u hu; simp [lastSetURL] at hu
  | cons c cs ih =>
    intro u hu
    simp only [sessionEvents, handleCalls_append, hasClient_append, Bool.or_eq_true]
    simp only [lastSetURL] at hu
    cases hl : lastSetURL cs with
    | some v => exact Or.inr (ih v hl)
    | none =>
      rw [hl] at hu
      exact Or.inl (hasClient_events h c u hu)

theorem length_memcpy (memory : Nat → Nat) (n : Nat) :
    ∀ src : Nat, (memcpy memory src n).length = n := by
  induction n with
  | zero => intro src; rfl
  | succ n ih => intro src; simp [memcpy, ih]

/-- C2, as stated, fails: a session on which script delivers bytes and finishes without
ever calling `setURL` gets no completion client, so although a cache-store hook is
registered and the compile succeeds with a serialization of three bytes, the hook is
not called. -/
theorem C2_counterexample :
    ∃ w1 : World,
      exampleWorld.env.wasm_streaming_cache_callback = some (Value.function 2) ∧
      exampleModule.Serialize.owned.size = 3 ∧
      runCalls exampleAccepts
          [SessionCall.onBytesReceived [Value.arrayBufferView exampleView], SessionCall.finish []]
          (some exampleWrap) exampleWorld = Result.ok (some exampleWrap) w1 ∧
      cacheStoreCalls (drainImmediates (some Value.undefined)
        (compileSucceeded exampleWrap.streaming_ exampleModule.Serialize w1)).world.trace = [] :=
  ⟨_, rfl, rfl, rfl, by decide⟩

theorem env_immediate (hookResult : Option Value) (m : CompiledWasmModule) (w : World) :
    (WasmStreamingClient.immediate hookResult m w).world.env = w.env := by
  simp only [WasmStreamingClient.immediate]
  split
  · rfl
  · cases w.env.wasm_streaming_cache_callback with
    | none => rfl
    | some fn => cases hookResult <;> rfl

theorem env_runImmediates (hookResult : Option Value) (q : List CompiledWasmModule) :
    ∀ w w2 : World, runImmediates hookResult q w = Result.ok () w2 → w2.env = w.env := by
  induction q with
  | nil =>
    intro w w2 h
    simp only [runImmediates] at h
    injection h with _ h2
    subst h2
    rfl
  | cons m q ih =>
    intro w w2 h
    simp only [runImmediates] at h
    have he := env_immediate hookResult m w
    cases hr : WasmStreamingClient.immediate hookResult m w with
    | ok r w1 =>
      rw [hr] at h he
      exact (ih w1 w2 h).trans he
    | fatal f w1 =>
      rw [hr] at h
      cases h

theorem runImmediates_append (hookResult : Option Value) (q r : List CompiledWasmModule) :
    ∀ w : World, runImmediates hookResult (q ++ r) w =
      (match runImmediates hookResult q w with
        | Result.ok _ w1 => runImmediates hookResult r w1
        | Result.fatal f w1 => Result.fatal f w1) := by
  induction q with
  | nil => intro w; rfl
  | cons a q ih =>
    intro w
    simp only [List.cons_append, runImmediates]
    cases WasmStreamingClient.immediate hookResult a w with
    | ok x w1 => simp [ih]
    | fatal f w1 => simp

/-- The closure of a module whose serialization is not empty, run while a cache-store
hook is registered, calls that hook once, with the URL of the module and the copied
buffer, and does nothing else. -/
theorem trace_immediate (hookResult : Option Value) (m : CompiledWasmModule) (w : World)
    (hook : Value) (hhook : w.env.wasm_streaming_cache_callback = some hook)
    (hsize : m.Serialize.owned.size ≠ 0) :
    (WasmStreamingClient.immediate hookResult m w).world.trace =
      w.trace ++ [Event.cacheStoreCall hook [Value.string m.source_url,
        Value.arrayBuffer ⟨memcpy m.Serialize.memory m.Serialize.ownedAddr
          m.Serialize.owned.size⟩]] := by
  simp only [WasmStreamingClient.immediate, hsize, if_false, hhook]
  cases hookResult <;> simp [Result.world, World.log]

/-- C2, amended. For every session whose method calls are made while a cache-store hook
is registered and on which script called `setURL` at least once, with `url` the URL set
last: the session itself makes no cache-store call; when the compile succeeds with a
serialization that is not empty, the completion adds exactly one task to the queue of the
control thread and does nothing else; that task, run in any world in which a cache-store
hook is registered, calls that hook exactly once, with the string `url` as first argument
and a buffer of the length of the serialization as second; and when the control thread
drains its queue in the world of the completion and the tasks queued earlier return, the
hook is called exactly once more after them, with these arguments. -/
theorem C2_one_cache_store_call_with_the_last_url (accepts : List Nat → Bool)
    (hookResult : Option Value) (calls : List SessionCall) (wrap : WasmStreamingWrap)
    (w : World) (hook : Value) (url : String) (ser : Serialized)
    (hhook : w.env.wasm_streaming_cache_callback = some hook)
    (htyped : ∀ c ∈ calls, c.wellTyped = true)
    (hurl : lastSetURL calls = some url)
    (hsize : ser.owned.size ≠ 0) :
    ∃ wrap1 w1 store,
      runCalls accepts calls (some wrap) w = Result.ok (some wrap1) w1 ∧
      cacheStoreCalls w1.trace = cacheStoreCalls w.trace ∧
      (compileSucceeded wrap.streaming_ ser w1).trace = w1.trace ∧
      (compileSucceeded wrap.streaming_ ser w1).env.threadsafe_immediates =
        w.env.threadsafe_immediates ++ [⟨url, ser⟩] ∧
      store.Data.length = ser.owned.size ∧
      (∀ (w2 : World) (hook2 : Value), w2.env.wasm_streaming_cache_callback = some hook2 →
        (WasmStreamingClient.immediate hookResult ⟨url, ser⟩ w2).world.trace =
          w2.trace ++
            [Event.cacheStoreCall hook2 [Value.string url, Value.arrayBuffer store]]) ∧
      (∀ w2 : World,
        runImmediates hookResult w.env.threadsafe_immediates
            ⟨{ w.env with threadsafe_immediates := [] }, w1.trace⟩ = Result.ok () w2 →
        cacheStoreCalls (drainImmediates hookResult
            (compileSucceeded wrap.streaming_ ser w1)).world.trace =
          cacheStoreCalls w2.trace ++
            [(hook, [Value.string url, Value.arrayBuffer store])]) := by
  obtain ⟨wrap1, hrun, _⟩ := runCalls_ok accepts calls wrap w htyped
  rw [hhook] at hrun
  simp only [Option.isSome_some] at hrun
  have hclient : hasClient (handleCalls wrap.streaming_
      (w.trace ++ sessionEvents true wrap.streaming_ calls)) = true := by
    simp [handleCalls_append, hasClient_append, hasClient_sessionEvents wrap.streaming_ calls url hurl]
  have hlast : lastUrl (handleCalls wrap.streaming_
      (w.trace ++ sessionEvents true wrap.streaming_ calls)) = some url := by
    simp [handleCalls_append, lastUrl_append, lastUrl_sessionEvents, hurl]
  have hcs : compileSucceeded wrap.streaming_ ser
      ⟨w.env, w.trace ++ sessionEvents true wrap.streaming_ calls⟩ =
      WasmStreamingClient.OnModuleCompiled ⟨url, ser⟩
        ⟨w.env, w.trace ++ sessionEvents true wrap.streaming_ calls⟩ := by
    simp only [compileSucceeded, hclient, hlast, if_true, Option.getD_some]
  refine ⟨wrap1, _, ⟨memcpy ser.memory ser.ownedAddr ser.owned.size⟩, hrun, ?_, ?_, ?_,
    length_memcpy _ _ _, ?_, ?_⟩
  · simp [cacheStoreCalls_append, cacheStoreCalls_sessionEvents]
  · rw [hcs]; rfl
  · rw [hcs]; rfl
  · intro w2 hook2 h2
    exact trace_immediate hookResult ⟨url, ser⟩ w2 hook2 h2 hsize
  · intro w2 hq
    have henv := env_runImmediates hookResult _ _ w2 hq
    have hh2 : w2.env.wasm_streaming_cache_callback = some hook := by
      rw [henv]; exact hhook
    rw [hcs]
    simp only [drainImmediates, WasmStreamingClient.OnModuleCompiled, runImmediates_append, hq,
      runImmediates]
    have ht := trace_immediate hookResult ⟨url, ser⟩ w2 hook hh2 hsize
    cases hr : WasmStreamingClient.immediate hookResult ⟨url, ser⟩ w2 with
    | ok x w3 =>
      rw [hr] at ht
      simp only [Result.world] at ht ⊢
      rw [ht]
      simp [cacheStoreCalls_append, cacheStoreCalls]
    | fatal f w3 =>
      rw [hr] at ht
      simp only [Result.world] at ht ⊢
      rw [ht]
      simp [cacheStoreCalls_append, cacheStoreCalls]

/-- C2, amended, at an input: the session of the scenario (`setURL("a.wasm")`, one
chunk, `finish()`) in `exampleWorld`, compiled to `exampleModule`; the task is run in
`handlerWorld`, and the queue is drained in the world of the completion. -/
theorem C2_one_cache_store_call_with_the_last_url_witness :
    ∃ wrap1 w1 store,
      runCalls exampleAccepts
          [SessionCall.setURL [Value.string "a.wasm"],
           SessionCall.onBytesReceived [Value.arrayBufferView exampleView],
           SessionCall.finish []]
          (some exampleWrap) exampleWorld = Result.ok (some wrap1) w1 ∧
      cacheStoreCalls w1.trace = cacheStoreCalls exampleWorld.trace ∧
      (compileSucceeded exampleWrap.streaming_ exampleModule.Serialize w1).trace = w1.trace ∧
      (compileSucceeded exampleWrap.streaming_ exampleModule.Serialize
          w1).env.threadsafe_immediates =
        exampleWorld.env.threadsafe_immediates ++ [⟨"a.wasm", exampleModule.Serialize⟩] ∧
      store.Data.length = exampleModule.Serialize.owned.size ∧
      (WasmStreamingClient.immediate (some Value.undefined)
          ⟨"a.wasm", exampleModule.Serialize⟩ handlerWorld).world.trace =
        handlerWorld.trace ++
          [Event.cacheStoreCall (Value.function 2)
            [Value.string "a.wasm", Value.arrayBuffer store]] ∧
      cacheStoreCalls (drainImmediates (some Value.undefined)
          (compileSucceeded exampleWrap.streaming_ exampleModule.Serialize w1)).world.trace =
        cacheStoreCalls w1.trace ++
          [(Value.function 2, [Value.string "a.wasm", Value.arrayBuffer store])] :=
  match C2_one_cache_store_call_with_the_last_url exampleAccepts (some Value.undefined)
    [SessionCall.setURL [Value.string "a.wasm"],
     SessionCall.onBytesReceived [Value.arrayBufferView exampleView],
     SessionCall.finish []]
    exampleWrap exampleWorld (Value.function 2) "a.wasm" exampleModule.Serialize
    rfl (by decide) (by decide) (by decide) with
  | ⟨wrap1, w1, store, h1, h2, h3, h4, h5, h6, h7⟩ =>
    ⟨wrap1, w1, store, h1, h2, h3, h4, h5, h6 handlerWorld (Value.function 2) rfl,
      h7 ⟨{ exampleWorld.env with threadsafe_immediates := [] }, w1.trace⟩ rfl⟩

end node.wasm_streaming
